import Mathlib

/-!
# Chain Verse — verification of the keyword-collection-and-poem-generation pipeline

A shallow embedding, in Lean 4, of the core of the `chain_verse` backend
(`src/backend/src/{derivation,words,database,poem_generator,scheduler,consts}.rs`),
together with theorems settling the specification's claims about it.

Conventions:
* Rust strings that are only ever hashed (block hashes, transaction
  signatures) are embedded as their UTF-8 byte lists `List Nat`
  (each entry `< 256`); dictionary words, dates and timestamps, which are
  only compared and stored, are embedded as Lean `String`s.
* Machine integers (`u64`, `usize`, `u32`) are embedded as `Nat` with
  explicit `% 2 ^ w` where the source can overflow; SHA-256's 32-bit
  words carry an explicit `% 2 ^ 32` at each arithmetic step.
* Fallible Rust functions (`anyhow::Result`) become `Except`.  A Rust
  *panic* (such as `%` with a zero divisor) is not an `Err`; where the
  source can panic the embedding returns a distinguished error value
  whose name records that it models a panic, keeping the function total.
-/

namespace ChainVerse

/-- A byte: a natural number below 256. -/
abbrev Byte := Nat

namespace Sha256

/-- `2 ^ 32`, the modulus of the 32-bit words SHA-256 computes with. -/
def w32 : Nat := 4294967296

/-- Right rotation of a 32-bit word `x` by `n` places. -/
def rotr (x n : Nat) : Nat := ((x >>> n) ||| (x <<< (32 - n))) % w32

/-- The 64 SHA-256 round constants (FIPS 180-4 §4.2.2), in decimal. -/
def K : List Nat :=
  [1116352408, 1899447441, 3049323471, 3921009573, 961987163,
   1508970993, 2453635748, 2870763221, 3624381080, 310598401,
   607225278, 1426881987, 1925078388, 2162078206, 2614888103,
   3248222580, 3835390401, 4022224774, 264347078, 604807628,
   770255983, 1249150122, 1555081692, 1996064986, 2554220882,
   2821834349, 2952996808, 3210313671, 3336571891, 3584528711,
   113926993, 338241895, 666307205, 773529912, 1294757372,
   1396182291, 1695183700, 1986661051, 2177026350, 2456956037,
   2730485921, 2820302411, 3259730800, 3345764771, 3516065817,
   3600352804, 4094571909, 275423344, 430227734, 506948616,
   659060556, 883997877, 958139571, 1322822218, 1537002063,
   1747873779, 1955562222, 2024104815, 2227730452, 2361852424,
   2428436474, 2756734187, 3204031479, 3329325298]

/-- The initial hash state (FIPS 180-4 §5.3.3), in decimal. -/
def H0 : List Nat :=
  [1779033703, 3144134277, 1013904242, 2773480762,
   1359893119, 2600822924, 528734635, 1541459225]

/-- The `k` big-endian bytes of `n` (most significant first). -/
def toBytesBE (k n : Nat) : List Byte :=
  match k with
  | 0 => []
  | k + 1 => toBytesBE k (n / 256) ++ [n % 256]

/-- A big-endian byte list read as one number. -/
def wordBE (l : List Byte) : Nat := l.foldl (fun acc b => acc * 256 + b) 0

/-- SHA-256 message padding: append `0x80`, zeros, and the 8-byte
big-endian bit length, to a multiple of 64 bytes. -/
def pad (msg : List Byte) : List Byte :=
  msg ++ [128] ++ List.replicate ((119 - msg.length % 64) % 64) 0
      ++ toBytesBE 8 (msg.length * 8)

/-- Split a byte list into 64-byte chunks (structural recursion on a fuel
argument so the definition reduces in the kernel; each step consumes at
least one byte, so `fuel = l.length` always suffices). -/
def chunks64Go (fuel : Nat) (l : List Byte) : List (List Byte) :=
  match fuel, l with
  | _, [] => []
  | 0, l => [l]
  | f + 1, b :: rest => ((b :: rest).take 64) :: chunks64Go f (rest.drop 63)

/-- Split a byte list into 64-byte chunks. -/
def chunks64 (l : List Byte) : List (List Byte) := chunks64Go l.length l

/-- Schedule function `σ₀`. -/
def s0 (x : Nat) : Nat := rotr x 7 ^^^ rotr x 18 ^^^ (x >>> 3)

/-- Schedule function `σ₁`. -/
def s1 (x : Nat) : Nat := rotr x 17 ^^^ rotr x 19 ^^^ (x >>> 10)

/-- Extend the 16-word schedule by `fuel` further words. -/
def extendW (w : List Nat) (fuel : Nat) : List Nat :=
  match fuel with
  | 0 => w
  | f + 1 =>
    let n := w.length
    let g := fun (i : Nat) => w.getD i 0
    extendW (w ++ [(g (n - 16) + s0 (g (n - 15)) + g (n - 7) + s1 (g (n - 2))) % w32]) f

/-- Compression function `Σ₀`. -/
def bigS0 (x : Nat) : Nat := rotr x 2 ^^^ rotr x 13 ^^^ rotr x 22

/-- Compression function `Σ₁`. -/
def bigS1 (x : Nat) : Nat := rotr x 6 ^^^ rotr x 11 ^^^ rotr x 25

/-- The `Ch` function; `¬e` on 32 bits is `e ^^^ 0xffffffff`. -/
def chFn (e f g : Nat) : Nat := (e &&& f) ^^^ ((e ^^^ 4294967295) &&& g)

/-- The `Maj` function. -/
def majFn (a b c : Nat) : Nat := (a &&& b) ^^^ (a &&& c) ^^^ (b &&& c)

/-- One compression round: the state is the 8-word list `[a,b,c,d,e,f,g,h]`,
`kw` the round constant paired with the schedule word. -/
def round (st : List Nat) (kw : Nat × Nat) : List Nat :=
  match st with
  | [a, b, c, d, e, f, g, h] =>
    let t1 := (h + bigS1 e + chFn e f g + kw.1 + kw.2) % w32
    let t2 := (bigS0 a + majFn a b c) % w32
    [(t1 + t2) % w32, a, b, c, (d + t1) % w32, e, f, g]
  | other => other

/-- Compress one 64-byte chunk into the running 8-word hash state. -/
def compress (hs : List Nat) (chunk : List Byte) : List Nat :=
  let w0 := (List.range 16).map (fun i => wordBE ((chunk.drop (4 * i)).take 4))
  let w := extendW w0 48
  let st := (K.zip w).foldl round hs
  (hs.zip st).map (fun p => (p.1 + p.2) % w32)

/-- SHA-256 of a byte list: 32 digest bytes, each hash word big-endian. -/
def sha256 (msg : List Byte) : List Byte :=
  ((chunks64 (pad msg)).foldl compress H0).foldr
    (fun wrd acc => toBytesBE 4 wrd ++ acc) []

end Sha256

/-- A little-endian byte list read as one number
(`u64::from_le_bytes` on 8 bytes). -/
def leBytesToNat (l : List Byte) : Nat := l.foldr (fun b acc => b + 256 * acc) 0

/-- `KeywordDerivation::hash_to_seed` (`derivation.rs:113-121`): SHA-256 the
input bytes, take the first 8 digest bytes, read them as a little-endian
unsigned 64-bit integer. -/
def hash_to_seed (input : List Byte) : Nat :=
  leBytesToNat ((Sha256.sha256 input).take 8)

/-- `WordDictionary` (`words.rs:5-10`): three ordered word categories. -/
structure WordDictionary where
  nouns : List String
  verbs : List String
  adjectives : List String
deriving DecidableEq

/-- `WordDictionary::all_words` (`words.rs:21-27`): the flat vocabulary,
nouns then verbs then adjectives. -/
def WordDictionary.all_words (d : WordDictionary) : List String :=
  d.nouns ++ d.verbs ++ d.adjectives

/-- `WordDictionary::total_count` (`words.rs:30-32`). -/
def WordDictionary.total_count (d : WordDictionary) : Nat :=
  d.nouns.length + d.verbs.length + d.adjectives.length

/-- `WordDictionary::get_word` (`words.rs:35-38`). -/
def WordDictionary.get_word (d : WordDictionary) (index : Nat) : Option String :=
  d.all_words.get? index

/-- `BlockDataSource` (`consts.rs:100-111`). -/
inductive BlockDataSource where
  | Blockhash
  | PreviousBlockhash
  | TransactionRoot
  | Rewards
  | TransactionCount
deriving DecidableEq

/-- `BlockInfo` (`blockchain.rs:13-23`); hashed string fields are embedded
as their UTF-8 byte lists. -/
structure BlockInfo where
  slot : Nat
  blockhash : List Byte
  previous_blockhash : List Byte
  block_time : Option Int
  block_height : Option Nat
  parent_slot : Nat
  transaction_count : Nat
  sample_signatures : List (List Byte)
deriving DecidableEq

/-- `DerivedKeyword` (`derivation.rs:141-149`). -/
structure DerivedKeyword where
  word : String
  slot : Nat
  blockhash : List Byte
  block_time : Option Int
  word_index : Nat
  source : BlockDataSource
deriving DecidableEq

/-- How a derivation can fail.  `modZeroPanic` models the Rust *panic*
raised by `seed % word_count` when `word_count` is zero
(`derivation.rs:33`) — in the source this aborts the thread, it is NOT an
`anyhow` error; the embedding returns it as a distinguished value to stay
total.  `indexOutOfBounds` is the source's genuine
`anyhow!("Word index out of bounds")` error (`derivation.rs:38`). -/
inductive DeriveError where
  | modZeroPanic
  | indexOutOfBounds
deriving DecidableEq

/-- Decimal digit bytes of `n`, as Rust's `format!("{}", n)` renders it
(fuel-based so the definition reduces in the kernel; `n / 10 < n` for
`n ≥ 10`, so `fuel = n + 1` always suffices). -/
def natToDecBytesGo (fuel n : Nat) : List Byte :=
  match fuel with
  | 0 => []
  | f + 1 => if n < 10 then [48 + n] else natToDecBytesGo f (n / 10) ++ [48 + n % 10]

/-- Decimal digit bytes of `n` (`'0' = 48`). -/
def natToDecBytes (n : Nat) : List Byte := natToDecBytesGo (n + 1) n

/-- `Vec::join(":")` on byte-list strings (`':' = 58`). -/
def joinColon : List (List Byte) → List Byte
  | [] => []
  | [s] => s
  | s :: rest => s ++ [58] ++ joinColon rest

/-- `KeywordDerivation::get_entropy_for_source` (`derivation.rs:94-110`).
The literal prefixes are the UTF-8 bytes of `"rewards:"` and
`"txcount:"`. -/
def get_entropy_for_source (block : BlockInfo) (source : BlockDataSource) : List Byte :=
  match source with
  | .Blockhash => block.blockhash
  | .PreviousBlockhash => block.previous_blockhash
  | .TransactionRoot => joinColon block.sample_signatures
  | .Rewards =>
    [114, 101, 119, 97, 114, 100, 115, 58] ++ natToDecBytes (block.block_height.getD 0)
  | .TransactionCount =>
    [116, 120, 99, 111, 117, 110, 116, 58] ++ natToDecBytes block.transaction_count
      ++ [58] ++ natToDecBytes block.slot

/-- `KeywordDerivation::derive_keyword_from_source` (`derivation.rs:24-49`):
hash the entropy to a seed, reduce modulo the dictionary size, look the
word up.  With an empty dictionary the source's `seed % word_count`
panics (modelled as `modZeroPanic`). -/
def derive_keyword_from_source (dict : WordDictionary) (block : BlockInfo)
    (source : BlockDataSource) : Except DeriveError DerivedKeyword :=
  let entropy := get_entropy_for_source block source
  let seed := hash_to_seed entropy
  let word_count := dict.total_count
  if word_count = 0 then .error .modZeroPanic
  else
    let word_index := seed % word_count
    match dict.all_words.get? word_index with
    | some word =>
      .ok ⟨word, block.slot, block.blockhash, block.block_time, word_index, source⟩
    | none => .error .indexOutOfBounds

/-- `KeywordDerivation::derive_keyword` (`derivation.rs:19-21`). -/
def derive_keyword (dict : WordDictionary) (block : BlockInfo) :
    Except DeriveError DerivedKeyword :=
  derive_keyword_from_source dict block .Blockhash

/-- The body of `derive_multiple_keywords`'s signature loop
(`derivation.rs:69-88`), one iteration: `p` is the enumerated signature
`(i, sig)`, the entropy is `format!("{}:{}", sig, i)`, the seed is hashed
and reduced modulo the dictionary size, and the derived word is appended
only when no collected keyword already carries it. -/
def multiSigStep (dict : WordDictionary) (block : BlockInfo)
    (acc : List DerivedKeyword) (p : Nat × List Byte) : List DerivedKeyword :=
  if dict.total_count = 0 then acc
  else
    match dict.all_words.get?
        (hash_to_seed (p.2 ++ [58] ++ natToDecBytes p.1) % dict.total_count) with
    | some word =>
      if acc.any (fun k => k.word = word) then acc
      else acc ++ [⟨word, block.slot, block.blockhash, block.block_time,
                    hash_to_seed (p.2 ++ [58] ++ natToDecBytes p.1) % dict.total_count,
                    .TransactionRoot⟩]
    | none => acc

/-- `KeywordDerivation::derive_multiple_keywords` (`derivation.rs:52-91`):
primary-hash word, previous-hash word if it differs from the first, then
one word per first-3 sample signatures when unseen.  If the dictionary
is empty the source panics inside the first
`derive_keyword_from_source` call, so the `total_count = 0` guard of
`multiSigStep` is never reached in the source; the claims about this
function assume a non-empty dictionary. -/
def derive_multiple_keywords (dict : WordDictionary) (block : BlockInfo) :
    List DerivedKeyword :=
  let k1 : List DerivedKeyword :=
    match derive_keyword_from_source dict block .Blockhash with
    | .ok kw => [kw]
    | .error _ => []
  let k2 : List DerivedKeyword :=
    match derive_keyword_from_source dict block .PreviousBlockhash with
    | .ok kw =>
      match k1 with
      | [] => [kw]
      | k0 :: _ => if k0.word ≠ kw.word then k1 ++ [kw] else k1
    | .error _ => k1
  (block.sample_signatures.take 3).enum.foldl (multiSigStep dict block) k2

/-- The word derived from one entropy string, as §4.1 of the spec words
it: digest, first-8-bytes little-endian, modulo dictionary size, index
into the vocabulary (total function; the default is never reached when
the dictionary is non-empty). -/
def spec_derived_word (dict : WordDictionary) (entropy : List Byte) : String :=
  dict.all_words.getD (hash_to_seed entropy % dict.total_count) ""

/-- One step of the spec's combination policy: add the word derived from
one enumerated signature only if not already present in the running
set. -/
def specSigStep (dict : WordDictionary) (acc : List String) (p : Nat × List Byte) :
    List String :=
  if spec_derived_word dict (p.2 ++ [58] ++ natToDecBytes p.1) ∈ acc then acc
  else acc ++ [spec_derived_word dict (p.2 ++ [58] ++ natToDecBytes p.1)]

/-- The multi-source combination policy as §4.1 of the spec words it:
start from the primary-hash word; add the previous-hash word only if it
differs from the first; then, for each of the first 3 sample transaction
signatures, add its derived word only if not already present. -/
def derive_multiple_words_spec (dict : WordDictionary) (block : BlockInfo) :
    List String :=
  let first := spec_derived_word dict block.blockhash
  let prev := spec_derived_word dict block.previous_blockhash
  let base := if prev ≠ first then [first, prev] else [first]
  (block.sample_signatures.take 3).enum.foldl (specSigStep dict) base

/-! ## Persistence gateway

`database.rs` executes SQL against SQLite; the statements' text is in the
source, so inserts and queries below are embedded statement by statement.
The table definitions live in `schema.sql`, which `database.rs:48` pulls
in with `include_str!` but which is not among the sources. -/

/-- A row of the `keywords` table (`StoredKeyword`, `database.rs:15-24`). -/
structure KeywordRow where
  id : Nat
  word : String
  slot : Nat
  blockhash : List Byte
  block_time : Option Int
  word_index : Nat
  created_at : String
deriving DecidableEq

/-- A row of the `poems` table (`StoredPoem`, `database.rs:26-34`);
`keyword_ids` is stored as a JSON list, embedded directly as the list. -/
structure PoemRow where
  id : Nat
  date : String
  title : Option String
  content : String
  keyword_ids : List Nat
  created_at : String
deriving DecidableEq

/-- Modelled from the spec: the table schema (`schema.sql`, referenced by
`database.rs:48` but missing from the sources) — per §3 of the spec,
`keywords.slot` is UNIQUE, `poems.date` is UNIQUE, identities are
auto-assigned, and `created_at` defaults to the store's current
timestamp.  The state of one SQLite connection: the two tables, the next
rowid of each, and the connection-wide `last_insert_rowid()` register
(0 before any successful insert, otherwise the rowid of the most recent
successful insert on any table). -/
structure DbState where
  keywords : List KeywordRow
  poems : List PoemRow
  nextKeywordId : Nat
  nextPoemId : Nat
  lastInsertRowid : Nat
deriving DecidableEq

/-- A freshly created database: no rows, rowids start at 1. -/
def DbState.empty : DbState := ⟨[], [], 1, 1, 0⟩

/-- The UNIQUE-slot well-formedness invariant the schema maintains. -/
def DbState.SlotsUnique (st : DbState) : Prop :=
  st.keywords.Pairwise (fun a b => a.slot ≠ b.slot)

/-- The UNIQUE-date well-formedness invariant the schema maintains. -/
def DbState.DatesUnique (st : DbState) : Prop :=
  st.poems.Pairwise (fun a b => a.date ≠ b.date)

/-- `count(keywords where slot = X)`. -/
def countKeywordsWithSlot (st : DbState) (slot : Nat) : Nat :=
  (st.keywords.filter (fun r => r.slot = slot)).length

/-- `count(poems where date = X)`. -/
def countPoemsWithDate (st : DbState) (date : String) : Nat :=
  (st.poems.filter (fun r => r.date = date)).length

/-- The `INSERT INTO keywords ... ON CONFLICT(slot) DO NOTHING` statement
shared by `insert_keyword` and `insert_keyword_with_date`
(`database.rs:57-70` and `database.rs:80-94`): if a row with the same
slot exists the statement is a no-op (no error is raised); either way the
call then returns `last_insert_rowid()`.  `created_at` is the value the
row gets for its creation-time column. -/
def insert_keyword_core (st : DbState) (kw : DerivedKeyword) (created_at : String) :
    DbState × Nat :=
  if st.keywords.any (fun r => r.slot = kw.slot) then
    (st, st.lastInsertRowid)
  else
    ({ st with
        keywords := st.keywords ++
          [⟨st.nextKeywordId, kw.word, kw.slot, kw.blockhash, kw.block_time,
            kw.word_index, created_at⟩],
        nextKeywordId := st.nextKeywordId + 1,
        lastInsertRowid := st.nextKeywordId },
     st.nextKeywordId)

/-- `Database::insert_keyword` (`database.rs:56-73`); `now` is the
store's `CURRENT_TIMESTAMP` default for `created_at`. -/
def insert_keyword (st : DbState) (kw : DerivedKeyword) (now : String) : DbState × Nat :=
  insert_keyword_core st kw now

/-- `Database::insert_keyword_with_date` (`database.rs:76-97`):
`created_at` is pinned to noon on the caller-supplied date. -/
def insert_keyword_with_date (st : DbState) (kw : DerivedKeyword) (date : String) :
    DbState × Nat :=
  insert_keyword_core st kw (date ++ " 12:00:00")

/-- `n` repeated calls of `insert_keyword` with the same keyword. -/
def insertKeywordIter (kw : DerivedKeyword) (now : String) : Nat → DbState → DbState
  | 0, st => st
  | n + 1, st => insertKeywordIter kw now n (insert_keyword st kw now).1

/-- SQLite's `DATE(created_at)` on a `YYYY-MM-DD HH:MM:SS` text
timestamp: the date part, i.e. the first 10 characters. -/
def dateOfTimestamp (created_at : String) : String := created_at.take 10

/-- Byte-wise lexicographic `≤`, SQLite's BINARY collation on the ASCII
timestamps the store holds. -/
def bytesLe : List Nat → List Nat → Bool
  | [], _ => true
  | _ :: _, [] => false
  | a :: as, b :: bs => if a < b then true else if a = b then bytesLe as bs else false

/-- BINARY-collation `≤` on strings, via their character values. -/
def strLe (a b : String) : Bool := bytesLe (a.data.map Char.toNat) (b.data.map Char.toNat)

/-- Row order by creation time: the `ORDER BY created_at ASC` key. -/
def rowLe (a b : KeywordRow) : Prop := strLe a.created_at b.created_at = true

instance : DecidableRel rowLe :=
  fun a b => instDecidableEqBool (strLe a.created_at b.created_at) true

/-- `ORDER BY created_at ASC`: sort the scanned rows by creation time. -/
def sortByCreatedAt (l : List KeywordRow) : List KeywordRow :=
  l.insertionSort rowLe

/-- `Database::get_keywords_for_date` (`database.rs:100-125`):
`WHERE DATE(created_at) = date ORDER BY created_at ASC`. -/
def get_keywords_for_date (st : DbState) (date : String) : List KeywordRow :=
  sortByCreatedAt (st.keywords.filter (fun r => dateOfTimestamp r.created_at = date))

/-- `Database::get_poem_by_date` (`database.rs:186-213`):
`WHERE date = ?`, first match if any. -/
def get_poem_by_date (st : DbState) (date : String) : Option PoemRow :=
  st.poems.find? (fun r => r.date = date)

/-- `Database::insert_poem` (`database.rs:156-183`):
`INSERT INTO poems ... ON CONFLICT(date) DO UPDATE SET title = excluded.title,
content = excluded.content, keyword_ids = excluded.keyword_ids` — on a
conflicting date the existing row's three payload columns are replaced in
place (id, date, created_at and position untouched; no row added); the
call then returns `last_insert_rowid()`, which only a fresh insert
updates.  `now` is the store's `CURRENT_TIMESTAMP` default. -/
def insert_poem (st : DbState) (date : String) (title : Option String)
    (content : String) (keyword_ids : List Nat) (now : String) : DbState × Nat :=
  if st.poems.any (fun r => r.date = date) then
    ({ st with
        poems := st.poems.map (fun r =>
          if r.date = date then
            { r with title := title, content := content, keyword_ids := keyword_ids }
          else r) },
     st.lastInsertRowid)
  else
    ({ st with
        poems := st.poems ++ [⟨st.nextPoemId, date, title, content, keyword_ids, now⟩],
        nextPoemId := st.nextPoemId + 1,
        lastInsertRowid := st.nextPoemId },
     st.nextPoemId)

/-! ## Scheduler and generation client -/

/-- `MIN_KEYWORDS_FOR_POEM` (`consts.rs:61`). -/
def MIN_KEYWORDS_FOR_POEM : Nat := 8

/-- `KeywordCollector::maybe_generate_daily_poem` (`scheduler.rs:98-139`)
with the generation client abstracted as `gen` (its argument is the
word list, in the stored order): skip if today's poem exists; skip if
today's keyword count is below `MIN_KEYWORDS_FOR_POEM`; otherwise invoke
`gen`, and on success upsert the poem for today with the keyword ids in
query order (a generation failure is logged and absorbed; the function
itself returns `Ok` in that case).  The returned flag records whether
`gen` was invoked this cycle. -/
def maybe_generate_daily_poem (st : DbState) (today : String) (now : String)
    (gen : List String → Except String String) : DbState × Bool :=
  match get_poem_by_date st today with
  | some _ => (st, false)
  | none =>
    let keywords := get_keywords_for_date st today
    if keywords.length < MIN_KEYWORDS_FOR_POEM then (st, false)
    else
      match gen (keywords.map (fun k => k.word)) with
      | .ok poem =>
        ((insert_poem st today none poem (keywords.map (fun k => k.id)) now).1, true)
      | .error _ => (st, true)

/-- The outcome trace of `generate_poem_with_retry`
(`poem_generator.rs:49-69`): the final result, how many attempts were
made, and the sleeps performed (in seconds, in order). -/
structure RetryTrace where
  result : Except String String
  calls : Nat
  sleeps : List Nat

/-- The retry loop body (`poem_generator.rs:52-66`): before every attempt
but the first, sleep `2 ^ attempt` seconds; return the first success
immediately; remember the last error.  `oracle k` is the outcome of
attempt `k` (`try_generate_poem`, a fresh network round trip each
time). -/
def retryGo (oracle : Nat → Except String String) (defaultErr : String) :
    Nat → Nat → Nat → List Nat → Option String → RetryTrace
  | 0, calls, _, sleeps, last_error =>
    ⟨.error (last_error.getD defaultErr), calls, sleeps⟩
  | remaining + 1, calls, attempt, sleeps, _ =>
    let sleeps := if 0 < attempt then sleeps ++ [2 ^ attempt] else sleeps
    match oracle attempt with
    | .ok poem => ⟨.ok poem, calls + 1, sleeps⟩
    | .error e => retryGo oracle defaultErr remaining (calls + 1) (attempt + 1) sleeps (some e)

/-- `PoemGenerator::generate_poem_with_retry` (`poem_generator.rs:49-69`). -/
def generate_poem_with_retry (oracle : Nat → Except String String)
    (max_retries : Nat) : RetryTrace :=
  retryGo oracle "Failed after max_retries attempts" max_retries 0 0 [] none

/-- `PoemGenerator::generate_poem` (`poem_generator.rs:44-46`): three
attempts. -/
def generate_poem (oracle : Nat → Except String String) : RetryTrace :=
  generate_poem_with_retry oracle 3

/-- One iteration of `KeywordCollector::start`'s loop
(`scheduler.rs:44-61`): run the collection step, `match` its result and
only log an error; then run the poem step on whatever state the first
step left, `match` its result and only log an error.  Each step returns
the state it leaves together with the error it reported, mirroring a
`Result<()>` whose `Err` carries no state. -/
def scheduler_tick {St E1 E2 : Type} (collect : St → St × Option E1)
    (maybe_poem : St → St × Option E2) (st : St) : St :=
  let r1 := collect st
  let r2 := maybe_poem r1.1
  r2.1

/-- `n` iterations of the scheduler loop (`loop { ... }`,
`scheduler.rs:44-61`): the loop never exits on its own, so its behaviour
is captured by its `n`-step unrollings for every `n`. -/
def scheduler_run {St E1 E2 : Type} (collect : St → St × Option E1)
    (maybe_poem : St → St × Option E2) : Nat → St → St
  | 0, st => st
  | n + 1, st => scheduler_run collect maybe_poem n (scheduler_tick collect maybe_poem st)

/-! ## Shared lemmas and sample inputs -/

/-- The flat vocabulary has exactly `total_count` entries. -/
theorem total_count_eq_length (d : WordDictionary) :
    d.total_count = d.all_words.length := by
  simp [WordDictionary.total_count, WordDictionary.all_words]
  omega

/-- A successful in-bounds indexed read returns the `getD` value. -/
theorem get?_eq_some_getD {α : Type} :
    ∀ (l : List α) (i : Nat), i < l.length → ∀ d : α, l.get? i = some (l.getD i d)
  | _ :: _, 0, _, _ => rfl
  | _ :: l, i + 1, h, d => get?_eq_some_getD l i (by simpa using h) d

/-- With a non-empty dictionary, derivation from any source succeeds and
returns exactly the word and index the spec's algorithm describes. -/
theorem derive_ok_of_nonempty (dict : WordDictionary) (block : BlockInfo)
    (source : BlockDataSource) (h : 0 < dict.total_count) :
    derive_keyword_from_source dict block source =
      .ok ⟨spec_derived_word dict (get_entropy_for_source block source),
           block.slot, block.blockhash, block.block_time,
           hash_to_seed (get_entropy_for_source block source) % dict.total_count,
           source⟩ := by
  have hne : dict.total_count ≠ 0 := Nat.pos_iff_ne_zero.mp h
  have hlt : hash_to_seed (get_entropy_for_source block source) % dict.total_count
      < dict.all_words.length := by
    rw [← total_count_eq_length]
    exact Nat.mod_lt _ h
  unfold derive_keyword_from_source spec_derived_word
  simp only [hne, if_false]
  rw [get?_eq_some_getD _ _ hlt ""]

/-- A sample dictionary: three nouns, two verbs, one adjective. -/
def sampleDict : WordDictionary :=
  ⟨["ember", "tide", "signal"], ["drift", "hum"], ["quiet"]⟩

/-- A sample block; `blockhash = "abc"`, `previous_blockhash = "abd"`,
three sample signatures `"sig1"`, `"sig2"`, `"sig3"` (UTF-8 bytes). -/
def sampleBlock : BlockInfo :=
  { slot := 12345
    blockhash := [97, 98, 99]
    previous_blockhash := [97, 98, 100]
    block_time := some 1234567890
    block_height := some 1000
    parent_slot := 12344
    transaction_count := 50
    sample_signatures := [[115, 105, 103, 49], [115, 105, 103, 50], [115, 105, 103, 51]] }

/-! ## C1 — derivation is deterministic and follows the hash-mod algorithm -/

/-- C1: for every entropy string (every block and data source) and every
dictionary of total size `N ≥ 1`, derivation succeeds; its index is the
first 8 bytes of the SHA-256 digest of the entropy bytes read as an
unsigned 64-bit little-endian integer, reduced modulo `N`; the index
lies in `[0, N)`; the word is the vocabulary entry at that index; and
derivation is a pure function, so repeated calls on the same inputs
return the same keyword. -/
theorem derivation_follows_hash_mod_algorithm
    (dict : WordDictionary) (block : BlockInfo) (source : BlockDataSource)
    (h : 1 ≤ dict.total_count) :
    ∃ kw : DerivedKeyword,
      derive_keyword_from_source dict block source = .ok kw ∧
      kw.word_index =
        leBytesToNat ((Sha256.sha256 (get_entropy_for_source block source)).take 8)
          % dict.total_count ∧
      kw.word_index < dict.total_count ∧
      dict.all_words.get? kw.word_index = some kw.word ∧
      derive_keyword_from_source dict block source
        = derive_keyword_from_source dict block source := by
  have hpos : 0 < dict.total_count := h
  refine ⟨_, derive_ok_of_nonempty dict block source hpos, rfl, ?_, ?_, rfl⟩
  · exact Nat.mod_lt _ hpos
  · have hlt : hash_to_seed (get_entropy_for_source block source) % dict.total_count
        < dict.all_words.length := by
      rw [← total_count_eq_length]
      exact Nat.mod_lt _ hpos
    exact get?_eq_some_getD _ _ hlt ""

/-- C1 witness: the theorem applied to the sample dictionary (size 6) and
the sample block's primary hash `"abc"`. -/
theorem derivation_follows_hash_mod_algorithm_witness :
    1 ≤ sampleDict.total_count ∧
    ∃ kw : DerivedKeyword,
      derive_keyword_from_source sampleDict sampleBlock .Blockhash = .ok kw ∧
      kw.word_index =
        leBytesToNat ((Sha256.sha256 (get_entropy_for_source sampleBlock .Blockhash)).take 8)
          % sampleDict.total_count ∧
      kw.word_index < sampleDict.total_count ∧
      sampleDict.all_words.get? kw.word_index = some kw.word ∧
      derive_keyword_from_source sampleDict sampleBlock .Blockhash
        = derive_keyword_from_source sampleDict sampleBlock .Blockhash :=
  ⟨by decide,
   derivation_follows_hash_mod_algorithm sampleDict sampleBlock .Blockhash (by decide)⟩

/-! ## C2 — empty dictionary: the source divides by zero instead of
returning an `InvalidDictionary` error -/

/-- C2 (divergence): on the empty dictionary, `derive_keyword_from_source`
reaches `seed % word_count` with `word_count = 0` (`derivation.rs:33`),
which in Rust is a remainder-by-zero *panic* — the derivation aborts
instead of failing with an `InvalidDictionary` error (no such error
exists anywhere in the source).  The embedding evaluates the code at the
failing input: the result is the distinguished `modZeroPanic` marker, on
every block and every data source. -/
theorem empty_dictionary_derivation_panics
    (block : BlockInfo) (source : BlockDataSource) :
    derive_keyword_from_source ⟨[], [], []⟩ block source = .error .modZeroPanic := by
  unfold derive_keyword_from_source
  simp [WordDictionary.total_count]

/-! ## C3 — duplicate keyword inserts are absorbed -/

/-- There is a keyword row for a slot exactly when its count is positive. -/
theorem count_slot_pos_iff (st : DbState) (s : Nat) :
    0 < countKeywordsWithSlot st s ↔ ∃ r ∈ st.keywords, r.slot = s := by
  rw [countKeywordsWithSlot, ← List.countP_eq_length_filter, List.countP_pos_iff]
  simp

/-- A conflicting keyword insert is a complete no-op: the state is
untouched and the stale `last_insert_rowid()` is returned. -/
theorem insert_keyword_core_conflict (st : DbState) (kw : DerivedKeyword) (c : String)
    (h : 0 < countKeywordsWithSlot st kw.slot) :
    insert_keyword_core st kw c = (st, st.lastInsertRowid) := by
  have hany : st.keywords.any (fun r => r.slot = kw.slot) = true := by
    rw [List.any_eq_true]
    obtain ⟨r, hr, hs⟩ := (count_slot_pos_iff st kw.slot).mp h
    exact ⟨r, hr, by simpa using hs⟩
  unfold insert_keyword_core
  simp [hany]

/-- A non-conflicting insert raises the slot's row count by one. -/
theorem count_insert_fresh (st : DbState) (kw : DerivedKeyword) (c : String)
    (hany : ¬ st.keywords.any (fun r => r.slot = kw.slot) = true) :
    countKeywordsWithSlot (insert_keyword_core st kw c).1 kw.slot
      = countKeywordsWithSlot st kw.slot + 1 := by
  unfold insert_keyword_core
  rw [if_neg hany]
  unfold countKeywordsWithSlot
  simp [List.filter_append]

/-- After one insert, a slot that had at most one row has exactly one. -/
theorem count_after_insert (st : DbState) (kw : DerivedKeyword) (c : String)
    (hwf : countKeywordsWithSlot st kw.slot ≤ 1) :
    countKeywordsWithSlot (insert_keyword_core st kw c).1 kw.slot = 1 := by
  by_cases hany : st.keywords.any (fun r => r.slot = kw.slot) = true
  · have hpos : 0 < countKeywordsWithSlot st kw.slot := by
      rw [count_slot_pos_iff]
      obtain ⟨r, hr, hs⟩ := List.any_eq_true.mp hany
      exact ⟨r, hr, by simpa using hs⟩
    rw [insert_keyword_core_conflict st kw c hpos]
    show countKeywordsWithSlot st kw.slot = 1
    omega
  · have hzero : countKeywordsWithSlot st kw.slot = 0 := by
      by_contra hne
      apply hany
      rw [List.any_eq_true]
      obtain ⟨r, hr, hs⟩ := (count_slot_pos_iff st kw.slot).mp (by omega)
      exact ⟨r, hr, by simpa using hs⟩
    rw [count_insert_fresh st kw c hany, hzero]

/-- Any positive number of repeated inserts of the same keyword leaves
exactly one row for its slot. -/
theorem iterated_insert_count (kw : DerivedKeyword) (now : String) :
    ∀ n st, countKeywordsWithSlot st kw.slot ≤ 1 → 1 ≤ n →
      countKeywordsWithSlot (insertKeywordIter kw now n st) kw.slot = 1 := by
  intro n
  induction n with
  | zero => intro st _ h; omega
  | succ m ih =>
    intro st hwf _
    simp only [insertKeywordIter]
    rcases Nat.eq_zero_or_pos m with hm | hm
    · subst hm
      simpa [insertKeywordIter] using count_after_insert st kw now hwf
    · exact ih _ (le_of_eq (count_after_insert st kw now hwf)) hm

/-- C3: inserting a keyword whose slot is already present never raises
(both insert operations are total functions of the state, by the
`ON CONFLICT(slot) DO NOTHING` statement) and never creates a second
row: any positive number of repeated inserts leaves exactly one row for
the slot, and the duplicate insert returns with the state exactly as it
was — for `insert_keyword` and `insert_keyword_with_date` alike. -/
theorem insert_keyword_absorbs_duplicates
    (st : DbState) (kw : DerivedKeyword) (now date : String) (n : Nat)
    (hwf : countKeywordsWithSlot st kw.slot ≤ 1) (hn : 1 ≤ n) :
    countKeywordsWithSlot (insertKeywordIter kw now n st) kw.slot = 1 ∧
    (1 ≤ countKeywordsWithSlot st kw.slot →
      insert_keyword st kw now = (st, st.lastInsertRowid) ∧
      insert_keyword_with_date st kw date = (st, st.lastInsertRowid)) := by
  refine ⟨iterated_insert_count kw now n st hwf hn, fun hpos => ⟨?_, ?_⟩⟩
  · exact insert_keyword_core_conflict st kw now hpos
  · exact insert_keyword_core_conflict st kw (date ++ " 12:00:00") hpos

/-- A sample keyword for slot 5. -/
def kwSlotFive : DerivedKeyword := ⟨"ember", 5, [97], none, 0, .Blockhash⟩

/-- A sample keyword for slot 7. -/
def kwSlotSeven : DerivedKeyword := ⟨"tide", 7, [98], none, 1, .Blockhash⟩

/-- C3 witness: the theorem applied, with three repeated inserts of the
slot-5 keyword into the state that already holds it once. -/
theorem insert_keyword_absorbs_duplicates_witness :
    (countKeywordsWithSlot (insert_keyword DbState.empty kwSlotFive "2025-01-01 00:00:00").1
        kwSlotFive.slot ≤ 1 ∧ 1 ≤ 3) ∧
    (countKeywordsWithSlot
        (insertKeywordIter kwSlotFive "2025-01-01 00:05:00" 3
          (insert_keyword DbState.empty kwSlotFive "2025-01-01 00:00:00").1)
        kwSlotFive.slot = 1 ∧
     (1 ≤ countKeywordsWithSlot (insert_keyword DbState.empty kwSlotFive "2025-01-01 00:00:00").1
          kwSlotFive.slot →
       insert_keyword (insert_keyword DbState.empty kwSlotFive "2025-01-01 00:00:00").1
           kwSlotFive "2025-01-01 00:05:00"
         = ((insert_keyword DbState.empty kwSlotFive "2025-01-01 00:00:00").1,
            (insert_keyword DbState.empty kwSlotFive "2025-01-01 00:00:00").1.lastInsertRowid) ∧
       insert_keyword_with_date
           (insert_keyword DbState.empty kwSlotFive "2025-01-01 00:00:00").1
           kwSlotFive "2025-01-02"
         = ((insert_keyword DbState.empty kwSlotFive "2025-01-01 00:00:00").1,
            (insert_keyword DbState.empty kwSlotFive "2025-01-01 00:00:00").1.lastInsertRowid))) :=
  ⟨⟨by decide, by decide⟩,
   insert_keyword_absorbs_duplicates
     (insert_keyword DbState.empty kwSlotFive "2025-01-01 00:00:00").1
     kwSlotFive "2025-01-01 00:05:00" "2025-01-02" 3 (by decide) (by decide)⟩

/-! ## C7 — poem upsert replaces in place, never duplicates -/

/-- There is a poem row for a date exactly when its count is positive. -/
theorem count_date_pos_iff (st : DbState) (d : String) :
    0 < countPoemsWithDate st d ↔ ∃ r ∈ st.poems, r.date = d := by
  rw [countPoemsWithDate, ← List.countP_eq_length_filter, List.countP_pos_iff]
  simp

/-- A conflicting poem upsert rewrites the three payload columns of the
matching rows and nothing else. -/
theorem insert_poem_conflict (st : DbState) (d : String) (t : Option String)
    (c : String) (ids : List Nat) (now : String)
    (h : 0 < countPoemsWithDate st d) :
    insert_poem st d t c ids now =
      ({ st with poems := st.poems.map (fun r =>
          if r.date = d then { r with title := t, content := c, keyword_ids := ids }
          else r) },
       st.lastInsertRowid) := by
  have hany : st.poems.any (fun r => r.date = d) = true := by
    rw [List.any_eq_true]
    obtain ⟨r, hr, hs⟩ := (count_date_pos_iff st d).mp h
    exact ⟨r, hr, by simpa using hs⟩
  unfold insert_poem
  simp [hany]

/-- A conflicting upsert does not change the date's row count. -/
theorem count_poem_map_unchanged (st : DbState) (d : String) (t : Option String)
    (c : String) (ids : List Nat) :
    countPoemsWithDate
      ({ st with poems := st.poems.map (fun r =>
          if r.date = d then { r with title := t, content := c, keyword_ids := ids }
          else r) } : DbState) d = countPoemsWithDate st d := by
  simp only [countPoemsWithDate, ← List.countP_eq_length_filter, List.countP_map]
  apply List.countP_congr
  intro r _
  by_cases hrd : r.date = d <;> simp [Function.comp, hrd]

/-- A non-conflicting upsert raises the date's row count by one. -/
theorem count_poem_insert_fresh (st : DbState) (d : String) (t : Option String)
    (c : String) (ids : List Nat) (now : String)
    (hany : ¬ st.poems.any (fun r => r.date = d) = true) :
    countPoemsWithDate (insert_poem st d t c ids now).1 d
      = countPoemsWithDate st d + 1 := by
  unfold insert_poem
  rw [if_neg hany]
  unfold countPoemsWithDate
  simp [List.filter_append]

/-- After one upsert, a date that had at most one row has exactly one. -/
theorem count_after_insert_poem (st : DbState) (d : String) (t : Option String)
    (c : String) (ids : List Nat) (now : String)
    (hwf : countPoemsWithDate st d ≤ 1) :
    countPoemsWithDate (insert_poem st d t c ids now).1 d = 1 := by
  by_cases hany : st.poems.any (fun r => r.date = d) = true
  · have hpos : 0 < countPoemsWithDate st d := by
      rw [count_date_pos_iff]
      obtain ⟨r, hr, hs⟩ := List.any_eq_true.mp hany
      exact ⟨r, hr, by simpa using hs⟩
    rw [insert_poem_conflict st d t c ids now hpos]
    show countPoemsWithDate _ d = 1
    rw [count_poem_map_unchanged]
    omega
  · have hzero : countPoemsWithDate st d = 0 := by
      by_contra hne
      apply hany
      rw [List.any_eq_true]
      obtain ⟨r, hr, hs⟩ := (count_date_pos_iff st d).mp (by omega)
      exact ⟨r, hr, by simpa using hs⟩
    rw [count_poem_insert_fresh st d t c ids now hany, hzero]

/-- C7: upserting a poem for a date that already has one replaces that
row's title, content and keyword-id list in place (same id, same
creation time, same position, no other row touched — replace, not
merge) and never creates a second row: the count of poem rows for the
date is exactly 1 after the upsert and stays 1 after any further
upsert. -/
theorem insert_poem_upsert_replaces_in_place
    (st : DbState) (d : String) (t t' : Option String) (c c' : String)
    (ids ids' : List Nat) (now now' : String)
    (hwf : countPoemsWithDate st d ≤ 1) :
    countPoemsWithDate (insert_poem st d t c ids now).1 d = 1 ∧
    (1 ≤ countPoemsWithDate st d →
      (insert_poem st d t c ids now).1 =
        { st with poems := st.poems.map (fun r =>
            if r.date = d then { r with title := t, content := c, keyword_ids := ids }
            else r) }) ∧
    countPoemsWithDate
      (insert_poem (insert_poem st d t c ids now).1 d t' c' ids' now').1 d = 1 := by
  have h1 := count_after_insert_poem st d t c ids now hwf
  refine ⟨h1, fun hpos => ?_, ?_⟩
  · rw [insert_poem_conflict st d t c ids now hpos]
  · exact count_after_insert_poem _ d t' c' ids' now' (le_of_eq h1)

/-- C7 witness: the theorem applied to a state holding one poem for
2025-01-01; the second upsert replaces it in place. -/
theorem insert_poem_upsert_replaces_in_place_witness :
    countPoemsWithDate
      ⟨[], [⟨1, "2025-01-01", none, "old poem", [1, 2], "2025-01-01 12:00:00"⟩], 1, 2, 1⟩
      "2025-01-01" ≤ 1 ∧
    (countPoemsWithDate
        (insert_poem
          ⟨[], [⟨1, "2025-01-01", none, "old poem", [1, 2], "2025-01-01 12:00:00"⟩], 1, 2, 1⟩
          "2025-01-01" (some "title") "new poem" [1, 2, 3] "2025-01-02 00:00:00").1
        "2025-01-01" = 1 ∧
     (1 ≤ countPoemsWithDate
          ⟨[], [⟨1, "2025-01-01", none, "old poem", [1, 2], "2025-01-01 12:00:00"⟩], 1, 2, 1⟩
          "2025-01-01" →
       (insert_poem
          ⟨[], [⟨1, "2025-01-01", none, "old poem", [1, 2], "2025-01-01 12:00:00"⟩], 1, 2, 1⟩
          "2025-01-01" (some "title") "new poem" [1, 2, 3] "2025-01-02 00:00:00").1 =
        { (⟨[], [⟨1, "2025-01-01", none, "old poem", [1, 2], "2025-01-01 12:00:00"⟩], 1, 2, 1⟩ : DbState) with
            poems := [⟨1, "2025-01-01", none, "old poem", [1, 2], "2025-01-01 12:00:00"⟩].map
              (fun r => if r.date = "2025-01-01" then
                  { r with title := some "title", content := "new poem", keyword_ids := [1, 2, 3] }
                else r) }) ∧
     countPoemsWithDate
        (insert_poem
          (insert_poem
            ⟨[], [⟨1, "2025-01-01", none, "old poem", [1, 2], "2025-01-01 12:00:00"⟩], 1, 2, 1⟩
            "2025-01-01" (some "title") "new poem" [1, 2, 3] "2025-01-02 00:00:00").1
          "2025-01-01" none "third poem" [4] "2025-01-02 01:00:00").1
        "2025-01-01" = 1) :=
  ⟨by decide,
   insert_poem_upsert_replaces_in_place
     ⟨[], [⟨1, "2025-01-01", none, "old poem", [1, 2], "2025-01-01 12:00:00"⟩], 1, 2, 1⟩
     "2025-01-01" (some "title") none "new poem" "third poem" [1, 2, 3] [4]
     "2025-01-02 00:00:00" "2025-01-02 01:00:00" (by decide)⟩

/-! ## C10 — the id returned on a conflicting keyword insert is stale -/

/-- C10: a conflicting `insert_keyword` is absorbed, but the function
still returns `last_insert_rowid()`, which the no-op insert did not
update.  Concretely: after inserting slot 5 (row id 1) and slot 7 (row
id 2), re-inserting slot 5 returns 2 — the id of the *slot-7* row, not
of any row for slot 5; and on a connection that has not inserted yet
(register 0) re-inserting slot 5 returns 0, the id of no row at all. -/
theorem insert_keyword_conflict_returns_unrelated_rowid :
    (insert_keyword
        (insert_keyword (insert_keyword DbState.empty kwSlotFive "2025-01-01 00:00:00").1
          kwSlotSeven "2025-01-01 00:05:00").1
        kwSlotFive "2025-01-01 00:10:00").2 = 2 ∧
    ((insert_keyword (insert_keyword DbState.empty kwSlotFive "2025-01-01 00:00:00").1
          kwSlotSeven "2025-01-01 00:05:00").1.keywords.filter
        (fun row => row.slot = 5)).map (fun row => row.id) = [1] ∧
    ((insert_keyword (insert_keyword DbState.empty kwSlotFive "2025-01-01 00:00:00").1
          kwSlotSeven "2025-01-01 00:05:00").1.keywords.filter
        (fun row => row.slot = 7)).map (fun row => row.id) = [2] ∧
    (insert_keyword
        (⟨[⟨1, "ember", 5, [97], none, 0, "2025-01-01 00:00:00"⟩], [], 2, 1, 0⟩ : DbState)
        kwSlotFive "2025-01-02 00:00:00").2 = 0 ∧
    (∀ row ∈ (⟨[⟨1, "ember", 5, [97], none, 0, "2025-01-01 00:00:00"⟩], [], 2, 1, 0⟩ :
        DbState).keywords, row.id ≠ 0) := by
  decide

/-! ## C4 — generation retry policy -/

/-- Success on the first attempt: one call, no sleep. -/
theorem retry_trace_ok0 (oracle : Nat → Except String String) (p : String)
    (h0 : oracle 0 = .ok p) : generate_poem oracle = ⟨.ok p, 1, []⟩ := by
  simp [generate_poem, generate_poem_with_retry, retryGo, h0]

/-- Success on the second attempt: two calls, one 2-second sleep. -/
theorem retry_trace_ok1 (oracle : Nat → Except String String) (e0 p : String)
    (h0 : oracle 0 = .error e0) (h1 : oracle 1 = .ok p) :
    generate_poem oracle = ⟨.ok p, 2, [2]⟩ := by
  simp [generate_poem, generate_poem_with_retry, retryGo, h0, h1]

/-- Success on the third attempt: three calls, sleeps of 2 then 4 seconds. -/
theorem retry_trace_ok2 (oracle : Nat → Except String String) (e0 e1 p : String)
    (h0 : oracle 0 = .error e0) (h1 : oracle 1 = .error e1) (h2 : oracle 2 = .ok p) :
    generate_poem oracle = ⟨.ok p, 3, [2, 4]⟩ := by
  simp [generate_poem, generate_poem_with_retry, retryGo, h0, h1, h2]

/-- Three failures: three calls, sleeps of 2 then 4 seconds, and the
last observed error surfaces. -/
theorem retry_trace_err (oracle : Nat → Except String String) (e0 e1 e2 : String)
    (h0 : oracle 0 = .error e0) (h1 : oracle 1 = .error e1) (h2 : oracle 2 = .error e2) :
    generate_poem oracle = ⟨.error e2, 3, [2, 4]⟩ := by
  simp [generate_poem, generate_poem_with_retry, retryGo, h0, h1, h2]

/-- C4: for every outcome sequence, `generate_poem` makes at most 3
attempts; a success on attempt `k` is returned immediately after exactly
`k + 1` calls, having slept 2 seconds before the 2nd attempt and 4
seconds before the 3rd (and nothing else); and if all three attempts
fail, the result is the error of the last attempt. -/
theorem generate_poem_retry_policy (oracle : Nat → Except String String) :
    (generate_poem oracle).calls ≤ 3 ∧
    (∀ p, oracle 0 = .ok p → generate_poem oracle = ⟨.ok p, 1, []⟩) ∧
    (∀ e0 p, oracle 0 = .error e0 → oracle 1 = .ok p →
      generate_poem oracle = ⟨.ok p, 2, [2]⟩) ∧
    (∀ e0 e1 p, oracle 0 = .error e0 → oracle 1 = .error e1 → oracle 2 = .ok p →
      generate_poem oracle = ⟨.ok p, 3, [2, 4]⟩) ∧
    (∀ e0 e1 e2, oracle 0 = .error e0 → oracle 1 = .error e1 → oracle 2 = .error e2 →
      generate_poem oracle = ⟨.error e2, 3, [2, 4]⟩) := by
  refine ⟨?_, fun p h0 => retry_trace_ok0 oracle p h0,
    fun e0 p h0 h1 => retry_trace_ok1 oracle e0 p h0 h1,
    fun e0 e1 p h0 h1 h2 => retry_trace_ok2 oracle e0 e1 p h0 h1 h2,
    fun e0 e1 e2 h0 h1 h2 => retry_trace_err oracle e0 e1 e2 h0 h1 h2⟩
  cases h0 : oracle 0 with
  | ok p => rw [retry_trace_ok0 oracle p h0]; simp
  | error e0 =>
    cases h1 : oracle 1 with
    | ok p => rw [retry_trace_ok1 oracle e0 p h0 h1]; simp
    | error e1 =>
      cases h2 : oracle 2 with
      | ok p => rw [retry_trace_ok2 oracle e0 e1 p h0 h1 h2]
      | error e2 => rw [retry_trace_err oracle e0 e1 e2 h0 h1 h2]

/-- A generation endpoint that fails twice, then succeeds. -/
def failTwiceOracle : Nat → Except String String :=
  fun k => if k = 0 then .error "error zero" else
    if k = 1 then .error "error one" else .ok "a poem"

/-- C4 witness: the theorem applied to the fail-twice-then-succeed
endpoint — exactly 3 calls, sleeps of 2 and 4 seconds, the poem
returned. -/
theorem generate_poem_retry_policy_witness :
    failTwiceOracle 0 = .error "error zero" ∧ failTwiceOracle 1 = .error "error one" ∧
    failTwiceOracle 2 = .ok "a poem" ∧
    generate_poem failTwiceOracle = ⟨.ok "a poem", 3, [2, 4]⟩ :=
  ⟨rfl, rfl, rfl,
   (generate_poem_retry_policy failTwiceOracle).2.2.2.1 "error zero" "error one" "a poem"
     rfl rfl rfl⟩

/-! ## C9 — per-tick error isolation in the scheduler loop -/

/-- C9: in every tick, each step's error is caught independently — when
the collection step reports an error the poem step still runs in the
same tick (on the state the collection step left), when the poem step
reports an error the tick still completes with the collection step's
state changes kept — and the loop always proceeds to the next tick: the
`(n+1)`-tick run continues from the tick's result for every `n`, no
error terminating it. -/
theorem scheduler_errors_isolated {St E1 E2 : Type}
    (collect : St → St × Option E1) (maybe_poem : St → St × Option E2) (st : St) :
    (∀ e1, (collect st).2 = some e1 →
      scheduler_tick collect maybe_poem st = (maybe_poem (collect st).1).1) ∧
    (∀ e2, (maybe_poem (collect st).1).2 = some e2 →
      scheduler_tick collect maybe_poem st = (maybe_poem (collect st).1).1) ∧
    (∀ n, scheduler_run collect maybe_poem (n + 1) st
      = scheduler_run collect maybe_poem n (scheduler_tick collect maybe_poem st)) :=
  ⟨fun _ _ => rfl, fun _ _ => rfl, fun _ => rfl⟩

/-- A collection step that always fails (after changing the state). -/
def failingCollect : Nat → Nat × Option String := fun s => (s + 1, some "collect error")

/-- A poem step that always fails (after changing the state). -/
def failingPoemStep : Nat → Nat × Option String := fun s => (s + 10, some "poem error")

/-- C9 witness: the theorem applied to a tick in which both steps fail —
the tick still runs both steps and the loop still advances. -/
theorem scheduler_errors_isolated_witness :
    (failingCollect 0).2 = some "collect error" ∧
    (failingPoemStep (failingCollect 0).1).2 = some "poem error" ∧
    scheduler_tick failingCollect failingPoemStep 0
      = (failingPoemStep (failingCollect 0).1).1 ∧
    scheduler_run failingCollect failingPoemStep 1 0
      = scheduler_run failingCollect failingPoemStep 0
          (scheduler_tick failingCollect failingPoemStep 0) :=
  ⟨rfl, rfl,
   (scheduler_errors_isolated failingCollect failingPoemStep 0).1 "collect error" rfl,
   (scheduler_errors_isolated failingCollect failingPoemStep 0).2.2 0⟩

/-! ## C5/C6 — the scheduler's poem step -/

/-- `bytesLe` is total. -/
theorem bytesLe_total : ∀ a b : List Nat, bytesLe a b = true ∨ bytesLe b a = true
  | [], _ => Or.inl rfl
  | _ :: _, [] => Or.inr rfl
  | a :: as, b :: bs => by
    rcases Nat.lt_trichotomy a b with h | h | h
    · left; simp [bytesLe, h]
    · subst h
      rcases bytesLe_total as bs with ih | ih
      · left; simp [bytesLe, ih]
      · right; simp [bytesLe, ih]
    · right; simp [bytesLe, h]

/-- `bytesLe` is transitive. -/
theorem bytesLe_trans : ∀ a b c : List Nat,
    bytesLe a b = true → bytesLe b c = true → bytesLe a c = true
  | [], _, _, _, _ => rfl
  | _ :: _, [], _, h, _ => by simp [bytesLe] at h
  | _ :: _, _ :: _, [], _, h => by simp [bytesLe] at h
  | a :: as, b :: bs, c :: cs, h1, h2 => by
    simp only [bytesLe] at h1 h2 ⊢
    rcases Nat.lt_trichotomy a b with hab | hab | hab
    · rcases Nat.lt_trichotomy b c with hbc | hbc | hbc
      · simp [show a < c from Nat.lt_trans hab hbc]
      · subst hbc; simp [hab]
      · rw [if_neg (by omega), if_neg (by omega)] at h2
        simp at h2
    · subst hab
      rcases Nat.lt_trichotomy a c with hac | hac | hac
      · simp [hac]
      · subst hac
        rw [if_neg (Nat.lt_irrefl a), if_pos rfl] at h1 h2 ⊢
        exact bytesLe_trans as bs cs h1 h2
      · rw [if_neg (by omega), if_neg (by omega)] at h2
        simp at h2
    · rw [if_neg (by omega), if_neg (by omega)] at h1
      simp at h1

instance : IsTotal KeywordRow rowLe :=
  ⟨fun a b => bytesLe_total (a.created_at.data.map Char.toNat) (b.created_at.data.map Char.toNat)⟩

instance : IsTrans KeywordRow rowLe :=
  ⟨fun a b c h1 h2 => bytesLe_trans
    (a.created_at.data.map Char.toNat) (b.created_at.data.map Char.toNat)
    (c.created_at.data.map Char.toNat) h1 h2⟩

/-- When no poem row matches a date, the date's row count is zero. -/
theorem count_poems_zero_of_absent (st : DbState) (d : String)
    (h : get_poem_by_date st d = none) : countPoemsWithDate st d = 0 := by
  unfold get_poem_by_date at h
  rw [countPoemsWithDate, ← List.countP_eq_length_filter, List.countP_eq_zero]
  intro r hr
  have := List.find?_eq_none.mp h r hr
  simpa using this

/-- A non-conflicting poem upsert appends exactly one fresh row. -/
theorem insert_poem_fresh_append (st : DbState) (d : String) (t : Option String)
    (c : String) (ids : List Nat) (now : String)
    (h : countPoemsWithDate st d = 0) :
    (insert_poem st d t c ids now).1
      = { st with
          poems := st.poems ++ [⟨st.nextPoemId, d, t, c, ids, now⟩],
          nextPoemId := st.nextPoemId + 1,
          lastInsertRowid := st.nextPoemId } := by
  have hany : ¬ st.poems.any (fun r => r.date = d) = true := by
    intro hc
    obtain ⟨r, hr, hs⟩ := List.any_eq_true.mp hc
    have : 0 < countPoemsWithDate st d :=
      (count_date_pos_iff st d).mpr ⟨r, hr, by simpa using hs⟩
    omega
  unfold insert_poem
  rw [if_neg hany]

/-- C5: when today has no poem yet, exactly
`MIN_KEYWORDS_FOR_POEM` keywords are stored for today, and the
generation call succeeds, one poem step creates exactly one poem row for
today — appended with the generated content, no title, and the full
keyword-id list of today's rows in query order —, the query order is
ascending by creation time, and the queried rows are exactly today's
stored rows. -/
theorem scheduler_tick_creates_single_poem
    (st : DbState) (today now content : String)
    (gen : List String → Except String String)
    (hnone : get_poem_by_date st today = none)
    (hcount : (get_keywords_for_date st today).length = MIN_KEYWORDS_FOR_POEM)
    (hgen : gen ((get_keywords_for_date st today).map (fun k => k.word)) = .ok content) :
    countPoemsWithDate (maybe_generate_daily_poem st today now gen).1 today = 1 ∧
    (maybe_generate_daily_poem st today now gen).1.poems
      = st.poems ++ [⟨st.nextPoemId, today, none, content,
          (get_keywords_for_date st today).map (fun k => k.id), now⟩] ∧
    List.Pairwise rowLe (get_keywords_for_date st today) ∧
    (get_keywords_for_date st today).Perm
      (st.keywords.filter (fun r => dateOfTimestamp r.created_at = today)) := by
  have hzero := count_poems_zero_of_absent st today hnone
  have hnotlt : ¬ (get_keywords_for_date st today).length < MIN_KEYWORDS_FOR_POEM := by
    rw [hcount]
    omega
  have hstep : maybe_generate_daily_poem st today now gen
      = ((insert_poem st today none content
            ((get_keywords_for_date st today).map (fun k => k.id)) now).1, true) := by
    unfold maybe_generate_daily_poem
    rw [hnone]
    simp only [hnotlt, if_false, hgen]
  refine ⟨?_, ?_, ?_, ?_⟩
  · rw [hstep]
    exact count_after_insert_poem st today none content _ now (by omega)
  · rw [hstep, insert_poem_fresh_append st today none content _ now hzero]
  · exact List.sorted_insertionSort rowLe _
  · exact List.perm_insertionSort rowLe _

/-- A state holding exactly eight keywords collected on 2025-06-01 and
no poem; the connection's last insert was row 8. -/
def poemReadyState : DbState :=
  ⟨[⟨1, "ember", 101, [1], none, 0, "2025-06-01 00:01:00"⟩,
    ⟨2, "tide", 102, [2], none, 1, "2025-06-01 00:02:00"⟩,
    ⟨3, "signal", 103, [3], none, 2, "2025-06-01 00:03:00"⟩,
    ⟨4, "drift", 104, [4], none, 3, "2025-06-01 00:04:00"⟩,
    ⟨5, "hum", 105, [5], none, 4, "2025-06-01 00:05:00"⟩,
    ⟨6, "quiet", 106, [6], none, 5, "2025-06-01 00:06:00"⟩,
    ⟨7, "glass", 107, [7], none, 0, "2025-06-01 00:07:00"⟩,
    ⟨8, "river", 108, [8], none, 1, "2025-06-01 00:08:00"⟩],
   [], 9, 1, 8⟩

/-- A generation client that always succeeds. -/
def okGen : List String → Except String String := fun _ => .ok "generated poem"

/-- C5 witness: the theorem applied to the eight-keyword state with the
always-succeeding client — exactly one poem row results. -/
theorem scheduler_tick_creates_single_poem_witness :
    get_poem_by_date poemReadyState "2025-06-01" = none ∧
    (get_keywords_for_date poemReadyState "2025-06-01").length = MIN_KEYWORDS_FOR_POEM ∧
    okGen ((get_keywords_for_date poemReadyState "2025-06-01").map (fun k => k.word))
      = .ok "generated poem" ∧
    countPoemsWithDate
      (maybe_generate_daily_poem poemReadyState "2025-06-01" "2025-06-01 00:09:00" okGen).1
      "2025-06-01" = 1 :=
  ⟨by decide, by decide, rfl,
   (scheduler_tick_creates_single_poem poemReadyState "2025-06-01" "2025-06-01 00:09:00"
      "generated poem" okGen (by decide) (by decide) rfl).1⟩

/-- C6: when a poem already exists for today, the poem step of a
collection cycle does not invoke the generation client at all and
returns the state unchanged — in particular the existing poem row keeps
its title, content and keyword-id list. -/
theorem existing_poem_blocks_generation
    (st : DbState) (today now : String) (gen : List String → Except String String)
    (p : PoemRow) (hp : get_poem_by_date st today = some p) :
    maybe_generate_daily_poem st today now gen = (st, false) ∧
    get_poem_by_date (maybe_generate_daily_poem st today now gen).1 today = some p := by
  have h1 : maybe_generate_daily_poem st today now gen = (st, false) := by
    unfold maybe_generate_daily_poem
    rw [hp]
  refine ⟨h1, ?_⟩
  rw [h1]
  exact hp

/-- A state that already holds a finished poem for 2025-06-01. -/
def poemDoneState : DbState :=
  ⟨[], [⟨1, "2025-06-01", some "a title", "finished poem", [1, 2, 3],
        "2025-06-01 10:00:00"⟩], 1, 2, 1⟩

/-- C6 witness: the theorem applied to the finished-poem state — the
cycle is a no-op and the stored poem is untouched. -/
theorem existing_poem_blocks_generation_witness :
    get_poem_by_date poemDoneState "2025-06-01"
      = some ⟨1, "2025-06-01", some "a title", "finished poem", [1, 2, 3],
              "2025-06-01 10:00:00"⟩ ∧
    maybe_generate_daily_poem poemDoneState "2025-06-01" "2025-06-01 10:30:00" okGen
      = (poemDoneState, false) :=
  ⟨by decide,
   (existing_poem_blocks_generation poemDoneState "2025-06-01" "2025-06-01 10:30:00" okGen
      ⟨1, "2025-06-01", some "a title", "finished poem", [1, 2, 3], "2025-06-01 10:00:00"⟩
      (by decide)).1⟩

/-! ## C8 — the multi-source word list -/

/-- With a non-empty dictionary, one signature-loop step evaluates to a
conditional append of the spec-derived word. -/
theorem multiSigStep_eval (dict : WordDictionary) (block : BlockInfo)
    (h : 0 < dict.total_count) (acc : List DerivedKeyword) (p : Nat × List Byte) :
    multiSigStep dict block acc p =
      if acc.any (fun k => k.word = spec_derived_word dict (p.2 ++ [58] ++ natToDecBytes p.1))
      then acc
      else acc ++ [⟨spec_derived_word dict (p.2 ++ [58] ++ natToDecBytes p.1),
                    block.slot, block.blockhash, block.block_time,
                    hash_to_seed (p.2 ++ [58] ++ natToDecBytes p.1) % dict.total_count,
                    .TransactionRoot⟩] := by
  have hne : dict.total_count ≠ 0 := Nat.pos_iff_ne_zero.mp h
  have hlt : hash_to_seed (p.2 ++ [58] ++ natToDecBytes p.1) % dict.total_count
      < dict.all_words.length := by
    rw [← total_count_eq_length]
    exact Nat.mod_lt _ h
  unfold multiSigStep spec_derived_word
  rw [if_neg hne, get?_eq_some_getD _ _ hlt ""]

/-- One signature-loop step computes, at the word level, exactly one
spec combination step. -/
theorem multiSigStep_word (dict : WordDictionary) (block : BlockInfo)
    (h : 0 < dict.total_count) (acc : List DerivedKeyword) (p : Nat × List Byte) :
    (multiSigStep dict block acc p).map DerivedKeyword.word
      = specSigStep dict (acc.map DerivedKeyword.word) p := by
  rw [multiSigStep_eval dict block h acc p]
  unfold specSigStep
  by_cases hmem : spec_derived_word dict (p.2 ++ [58] ++ natToDecBytes p.1)
      ∈ acc.map DerivedKeyword.word
  · have hany : (acc.any (fun k =>
        k.word = spec_derived_word dict (p.2 ++ [58] ++ natToDecBytes p.1))) = true := by
      rw [List.any_eq_true]
      obtain ⟨k, hk, hkw⟩ := List.mem_map.mp hmem
      exact ⟨k, hk, by simp [hkw]⟩
    rw [if_pos hany, if_pos hmem]
  · have hany : ¬ (acc.any (fun k =>
        k.word = spec_derived_word dict (p.2 ++ [58] ++ natToDecBytes p.1))) = true := by
      intro hc
      obtain ⟨k, hk, hkw⟩ := List.any_eq_true.mp hc
      exact hmem (List.mem_map.mpr ⟨k, hk, by simpa using hkw⟩)
    rw [if_neg hany, if_neg hmem, List.map_append]
    rfl

/-- One signature-loop step keeps the collected words duplicate-free. -/
theorem multiSigStep_nodup (dict : WordDictionary) (block : BlockInfo)
    (h : 0 < dict.total_count) (acc : List DerivedKeyword) (p : Nat × List Byte)
    (hn : (acc.map DerivedKeyword.word).Nodup) :
    ((multiSigStep dict block acc p).map DerivedKeyword.word).Nodup := by
  rw [multiSigStep_eval dict block h acc p]
  by_cases hany : (acc.any (fun k =>
      k.word = spec_derived_word dict (p.2 ++ [58] ++ natToDecBytes p.1))) = true
  · rw [if_pos hany]
    exact hn
  · have hmem : spec_derived_word dict (p.2 ++ [58] ++ natToDecBytes p.1)
        ∉ acc.map DerivedKeyword.word := by
      intro hc
      obtain ⟨k, hk, hkw⟩ := List.mem_map.mp hc
      exact hany (List.any_eq_true.mpr ⟨k, hk, by simp [hkw]⟩)
    rw [if_neg hany, List.map_append]
    simp only [List.map_cons, List.map_nil]
    rw [(List.perm_append_singleton _ _).nodup_iff, List.nodup_cons]
    exact ⟨hmem, hn⟩

/-- One signature-loop step never shrinks the collected list. -/
theorem multiSigStep_len_ge (dict : WordDictionary) (block : BlockInfo)
    (h : 0 < dict.total_count) (acc : List DerivedKeyword) (p : Nat × List Byte) :
    acc.length ≤ (multiSigStep dict block acc p).length := by
  rw [multiSigStep_eval dict block h acc p]
  by_cases hany : (acc.any (fun k =>
      k.word = spec_derived_word dict (p.2 ++ [58] ++ natToDecBytes p.1))) = true
  · rw [if_pos hany]
  · rw [if_neg hany, List.length_append]
    omega

/-- One signature-loop step adds at most one keyword. -/
theorem multiSigStep_len_le (dict : WordDictionary) (block : BlockInfo)
    (h : 0 < dict.total_count) (acc : List DerivedKeyword) (p : Nat × List Byte) :
    (multiSigStep dict block acc p).length ≤ acc.length + 1 := by
  rw [multiSigStep_eval dict block h acc p]
  by_cases hany : (acc.any (fun k =>
      k.word = spec_derived_word dict (p.2 ++ [58] ++ natToDecBytes p.1))) = true
  · rw [if_pos hany]
    omega
  · rw [if_neg hany, List.length_append]
    simp

/-- The whole signature loop computes, at the word level, the spec's
combination fold. -/
theorem sigFold_word (dict : WordDictionary) (block : BlockInfo)
    (h : 0 < dict.total_count) :
    ∀ (l : List (Nat × List Byte)) (acc : List DerivedKeyword),
      (l.foldl (multiSigStep dict block) acc).map DerivedKeyword.word
        = l.foldl (specSigStep dict) (acc.map DerivedKeyword.word)
  | [], _ => rfl
  | p :: ps, acc => by
    simp only [List.foldl_cons]
    rw [sigFold_word dict block h ps (multiSigStep dict block acc p),
      multiSigStep_word dict block h acc p]

/-- The signature loop keeps the collected words duplicate-free. -/
theorem sigFold_nodup (dict : WordDictionary) (block : BlockInfo)
    (h : 0 < dict.total_count) :
    ∀ (l : List (Nat × List Byte)) (acc : List DerivedKeyword),
      (acc.map DerivedKeyword.word).Nodup →
      ((l.foldl (multiSigStep dict block) acc).map DerivedKeyword.word).Nodup
  | [], _, hn => hn
  | p :: ps, acc, hn =>
    sigFold_nodup dict block h ps (multiSigStep dict block acc p)
      (multiSigStep_nodup dict block h acc p hn)

/-- The signature loop never shrinks the collected list. -/
theorem sigFold_len_ge (dict : WordDictionary) (block : BlockInfo)
    (h : 0 < dict.total_count) :
    ∀ (l : List (Nat × List Byte)) (acc : List DerivedKeyword),
      acc.length ≤ (l.foldl (multiSigStep dict block) acc).length
  | [], _ => le_refl _
  | p :: ps, acc =>
    le_trans (multiSigStep_len_ge dict block h acc p)
      (sigFold_len_ge dict block h ps (multiSigStep dict block acc p))

/-- The signature loop adds at most one keyword per iteration. -/
theorem sigFold_len_le (dict : WordDictionary) (block : BlockInfo)
    (h : 0 < dict.total_count) :
    ∀ (l : List (Nat × List Byte)) (acc : List DerivedKeyword),
      (l.foldl (multiSigStep dict block) acc).length ≤ acc.length + l.length
  | [], _ => le_refl _
  | p :: ps, acc => by
    simp only [List.foldl_cons, List.length_cons]
    have h1 := multiSigStep_len_le dict block h acc p
    have h2 := sigFold_len_le dict block h ps (multiSigStep dict block acc p)
    omega

/-- C8: with a non-empty dictionary, `derive_multiple_keywords` returns,
word for word, exactly the list the spec's combination policy describes
(primary-hash word first; previous-hash word only if different; then one
word per first-3 sample signatures when unseen); the words are pairwise
distinct and there are between 1 and 5 of them. -/
theorem derive_multiple_keywords_conform (dict : WordDictionary) (block : BlockInfo)
    (h : 0 < dict.total_count) :
    (derive_multiple_keywords dict block).map DerivedKeyword.word
        = derive_multiple_words_spec dict block ∧
    ((derive_multiple_keywords dict block).map DerivedKeyword.word).Nodup ∧
    1 ≤ (derive_multiple_keywords dict block).length ∧
    (derive_multiple_keywords dict block).length ≤ 5 := by
  have hB := derive_ok_of_nonempty dict block .Blockhash h
  have hP := derive_ok_of_nonempty dict block .PreviousBlockhash h
  have hent1 : get_entropy_for_source block .Blockhash = block.blockhash := rfl
  have hent2 : get_entropy_for_source block .PreviousBlockhash = block.previous_blockhash := rfl
  rw [hent1] at hB
  rw [hent2] at hP
  have hl3 : (block.sample_signatures.take 3).enum.length ≤ 3 := by
    rw [List.enum_length]
    exact List.length_take_le 3 block.sample_signatures
  by_cases heq : spec_derived_word dict block.previous_blockhash
      = spec_derived_word dict block.blockhash
  · have hcode : derive_multiple_keywords dict block
        = (block.sample_signatures.take 3).enum.foldl (multiSigStep dict block)
            [⟨spec_derived_word dict block.blockhash, block.slot, block.blockhash,
              block.block_time, hash_to_seed block.blockhash % dict.total_count,
              .Blockhash⟩] := by
      unfold derive_multiple_keywords
      rw [hB, hP]
      simp only []
      rw [if_neg (fun hc : ¬ _ = _ => hc heq.symm)]
    have hspec : derive_multiple_words_spec dict block
        = (block.sample_signatures.take 3).enum.foldl (specSigStep dict)
            [spec_derived_word dict block.blockhash] := by
      unfold derive_multiple_words_spec
      simp only []
      rw [if_neg (fun hc : ¬ _ = _ => hc heq)]
    refine ⟨?_, ?_, ?_, ?_⟩
    · rw [hcode, hspec, sigFold_word dict block h]
      rfl
    · rw [hcode]
      exact sigFold_nodup dict block h _ _ (by simp)
    · rw [hcode]
      exact le_trans (by simp) (sigFold_len_ge dict block h _ _)
    · rw [hcode]
      have hle := sigFold_len_le dict block h (block.sample_signatures.take 3).enum
        [⟨spec_derived_word dict block.blockhash, block.slot, block.blockhash,
          block.block_time, hash_to_seed block.blockhash % dict.total_count, .Blockhash⟩]
      simp only [List.length_cons, List.length_nil] at hle
      omega
  · have hcode : derive_multiple_keywords dict block
        = (block.sample_signatures.take 3).enum.foldl (multiSigStep dict block)
            [⟨spec_derived_word dict block.blockhash, block.slot, block.blockhash,
              block.block_time, hash_to_seed block.blockhash % dict.total_count,
              .Blockhash⟩,
             ⟨spec_derived_word dict block.previous_blockhash, block.slot, block.blockhash,
              block.block_time, hash_to_seed block.previous_blockhash % dict.total_count,
              .PreviousBlockhash⟩] := by
      unfold derive_multiple_keywords
      rw [hB, hP]
      simp only []
      rw [if_pos (fun hc => heq hc.symm)]
      rfl
    have hspec : derive_multiple_words_spec dict block
        = (block.sample_signatures.take 3).enum.foldl (specSigStep dict)
            [spec_derived_word dict block.blockhash,
             spec_derived_word dict block.previous_blockhash] := by
      unfold derive_multiple_words_spec
      simp only []
      rw [if_pos heq]
    refine ⟨?_, ?_, ?_, ?_⟩
    · rw [hcode, hspec, sigFold_word dict block h]
      rfl
    · rw [hcode]
      refine sigFold_nodup dict block h _ _ ?_
      simp only [List.map_cons, List.map_nil]
      rw [List.nodup_cons, List.nodup_cons]
      refine ⟨?_, ?_, List.nodup_nil⟩
      · intro hc
        rcases List.mem_singleton.mp hc with hc2
        exact heq hc2.symm
      · simp
    · rw [hcode]
      exact le_trans (by simp) (sigFold_len_ge dict block h _ _)
    · rw [hcode]
      have hle := sigFold_len_le dict block h (block.sample_signatures.take 3).enum
        [⟨spec_derived_word dict block.blockhash, block.slot, block.blockhash,
          block.block_time, hash_to_seed block.blockhash % dict.total_count, .Blockhash⟩,
         ⟨spec_derived_word dict block.previous_blockhash, block.slot, block.blockhash,
          block.block_time, hash_to_seed block.previous_blockhash % dict.total_count,
          .PreviousBlockhash⟩]
      simp only [List.length_cons, List.length_nil] at hle
      omega

/-- C8 witness: the theorem applied to the sample dictionary and the
sample block with its three signatures. -/
theorem derive_multiple_keywords_conform_witness :
    0 < sampleDict.total_count ∧
    ((derive_multiple_keywords sampleDict sampleBlock).map DerivedKeyword.word
        = derive_multiple_words_spec sampleDict sampleBlock ∧
     ((derive_multiple_keywords sampleDict sampleBlock).map DerivedKeyword.word).Nodup ∧
     1 ≤ (derive_multiple_keywords sampleDict sampleBlock).length ∧
     (derive_multiple_keywords sampleDict sampleBlock).length ≤ 5) :=
  ⟨by decide, derive_multiple_keywords_conform sampleDict sampleBlock (by decide)⟩

/-! ## Golden vectors for the SHA-256 embedding -/

/-- FIPS 180-4 test vector: the seed of the entropy string `"abc"`
(digest `ba7816bf…`, first 8 bytes little-endian). -/
theorem hash_to_seed_abc : hash_to_seed [97, 98, 99] = 16919744041952114874 := by
  decide

/-- FIPS 180-4 test vector: the seed of the empty entropy string
(digest `e3b0c442…`, first 8 bytes little-endian). -/
theorem hash_to_seed_empty : hash_to_seed [] = 1449310910991872227 := by
  decide

end ChainVerse
